import Mathlib

/-!
Shallow embedding of the "Molho Molho: Turbo Piment" prototype
(src/unnamed/part_000, identical logic in src/main.js).

JavaScript numbers are modelled as exact rationals (ℚ): the simulation only
adds, multiplies and compares, never divides, so every value of interest is
representable and the control flow is the same as in the source for the
inputs in question.  The `Math.random()` sample drawn in the CPU's random
jump trial is passed in explicitly as a rational argument `rand`; the source
comparison `Math.random() < 0.01` becomes `rand < 1/100`.

Canvas drawing is modelled by recording the `drawImage` call that
`Fighter.draw` issues together with the horizontal scale of the canvas
transform in force at the call (`ctx.scale(-1, 1)` in the left-facing
branch, identity otherwise); the world x-coordinate touched by a point of
the source sprite is recovered from that record.
-/

/-- A decoded image as the game observes it: only its width and height are
ever read (`img.width`, `img.height`). -/
structure Image where
  width : ℚ
  height : ℚ
deriving DecidableEq

/-- The `Fighter` class: position, velocity, facing (1 = right, -1 = left),
grounded flag and the shared sprite image. -/
structure Fighter where
  img : Image
  x : ℚ
  y : ℚ
  vx : ℚ
  vy : ℚ
  facing : ℤ
  onGround : Bool
deriving DecidableEq

/-- The `Fighter` constructor: `new Fighter(img, x, y)` — field initialisers
set `vx = 0`, `vy = 0`, `facing = 1`, `onGround = false`. -/
def Fighter.create (img : Image) (x y : ℚ) : Fighter :=
  { img := img, x := x, y := y, vx := 0, vy := 0, facing := 1, onGround := false }

/-- `Fighter.update(dt)`: gravity is applied to `vy`, then position is
integrated from the updated velocity, then the result is clamped to the
ground line at y = 150 (`if (this.y + this.img.height * 2 >= 150)`). -/
def Fighter.update (f : Fighter) (dt : ℚ) : Fighter :=
  let vy := f.vy + 600 * dt
  let x := f.x + f.vx * dt
  let y := f.y + vy * dt
  if y + f.img.height * 2 ≥ 150 then
    { f with x := x, y := 150 - f.img.height * 2, vy := 0, onGround := true }
  else
    { f with x := x, y := y, vy := vy, onGround := false }

/-- One `ctx.drawImage(img, dx, dy, dw, dh)` call, together with the
horizontal scale of the canvas transform in force when it is issued. -/
structure DrawImageCall where
  scaleX : ℚ
  dx : ℚ
  dy : ℚ
  dw : ℚ
  dh : ℚ
deriving DecidableEq

/-- `Fighter.draw(ctx)`: when facing left the context is flipped with
`ctx.scale(-1, 1)` and the destination rectangle starts at
`-x - width * 2`; otherwise the sprite is drawn at `x` unflipped.  Both
branches use destination size `width * 2 × height * 2`. -/
def Fighter.draw (f : Fighter) : DrawImageCall :=
  if f.facing < 0 then
    { scaleX := -1, dx := -f.x - f.img.width * 2, dy := f.y,
      dw := f.img.width * 2, dh := f.img.height * 2 }
  else
    { scaleX := 1, dx := f.x, dy := f.y,
      dw := f.img.width * 2, dh := f.img.height * 2 }

/-- The world x-coordinate at which the point of the source sprite at
horizontal fraction `t` (0 = sprite's left edge, 1 = its right edge) lands:
`drawImage` places it at `dx + t * dw` in user space, and the transform
maps user-space x to `scaleX * x`. -/
def DrawImageCall.worldX (d : DrawImageCall) (t : ℚ) : ℚ :=
  d.scaleX * (d.dx + t * d.dw)

/-- The four key codes the game reads: `KeyA`, `KeyD`, `KeyW`, `Space`.
Other codes are stored in `this.keys` but never read, so they are omitted
from the model. -/
inductive KeyCode where
  | keyA
  | keyD
  | keyW
  | space
deriving DecidableEq

/-- The pressed-state of the four observed keys (`this.keys`); absent
entries read as `false`. -/
structure Keys where
  keyA : Bool
  keyD : Bool
  keyW : Bool
  space : Bool
deriving DecidableEq

/-- Write one entry of the key map (`this.keys[e.code] = b`). -/
def Keys.set (k : Keys) (c : KeyCode) (b : Bool) : Keys :=
  match c with
  | KeyCode.keyA => { k with keyA := b }
  | KeyCode.keyD => { k with keyD := b }
  | KeyCode.keyW => { k with keyW := b }
  | KeyCode.space => { k with space := b }

/-- The phase value `this.state : 'loading' | 'vs' | 'fight'`. -/
inductive Phase where
  | loading
  | vs
  | fight
deriving DecidableEq

/-- Numeric rank of a phase along the intended progression
loading → vs → fight. -/
def phaseIdx : Phase → ℕ
  | Phase.loading => 0
  | Phase.vs => 1
  | Phase.fight => 2

/-- The `Game` state observed by the claims: key map, phase, asset handles,
the two fighters (absent until `loadAssets` completes).  `loadPending`
models the single outstanding asynchronous `loadAssets` call started by the
constructor: the host resolves it at most once, after which no further
load-completion can fire. -/
structure Game where
  keys : Keys
  state : Phase
  bg : Option Image
  fighterImg : Option Image
  player : Option Fighter
  cpu : Option Fighter
  loadPending : Bool
deriving DecidableEq

/-- The `Game` constructor's observable initial state: empty key map, phase
`loading`, no assets, no fighters, one load in flight. -/
def Game.init : Game :=
  { keys := { keyA := false, keyD := false, keyW := false, space := false },
    state := Phase.loading, bg := none, fighterImg := none,
    player := none, cpu := none, loadPending := true }

/-- The body of `loadAssets` after both images have decoded: record the
images, create the player at (60, 50) and the cpu at (220, 50) with
`cpu.facing = -1`, both from the same sprite image, then set the state to
`'vs'`. -/
def Game.loadAssets (g : Game) (bg fimg : Image) : Game :=
  { g with bg := some bg, fighterImg := some fimg,
           player := some (Fighter.create fimg 60 50),
           cpu := some { Fighter.create fimg 220 50 with facing := -1 },
           state := Phase.vs }

/-- The `keydown` handler: record the key as pressed; if the state is
`'vs'` and the key is `Space`, the state becomes `'fight'`. -/
def Game.keydown (g : Game) (c : KeyCode) : Game :=
  let g := { g with keys := g.keys.set c true }
  if g.state = Phase.vs ∧ c = KeyCode.space then { g with state := Phase.fight } else g

/-- The `keyup` handler: record the key as released. -/
def Game.keyup (g : Game) (c : KeyCode) : Game :=
  { g with keys := g.keys.set c false }

/-- The input-to-velocity step of `Game.update`: `vx` is reset to 0, then
`KeyA` sets `vx = -120, facing = -1`, else `KeyD` sets
`vx = 120, facing = 1`. -/
def playerInputVx (keys : Keys) (p : Fighter) : Fighter :=
  let p := { p with vx := 0 }
  if keys.keyA then { p with vx := -120, facing := -1 }
  else if keys.keyD then { p with vx := 120, facing := 1 }
  else p

/-- The jump step of `Game.update`:
`if (this.keys['KeyW'] && this.player.onGround) this.player.vy = -250`. -/
def playerJump (keys : Keys) (p : Fighter) : Fighter :=
  if keys.keyW && p.onGround then { p with vy := -250 } else p

/-- The CPU decision rule of `Game.update`: with `dx = playerX - cpu.x`,
`vx = Math.abs(dx) > 40 ? (dx > 0 ? 80 : -80) : 0` and then
`facing = vx >= 0 ? 1 : -1`. -/
def cpuAI (playerX : ℚ) (c : Fighter) : Fighter :=
  let dx := playerX - c.x
  let c := { c with vx := if 40 < |dx| then (if 0 < dx then 80 else -80) else 0 }
  { c with facing := if 0 ≤ c.vx then 1 else -1 }

/-- The CPU random-jump trial of `Game.update`:
`if (this.cpu.onGround && Math.random() < 0.01) this.cpu.vy = -250`,
with the random sample passed in as `rand`. -/
def cpuRandomJump (rand : ℚ) (c : Fighter) : Fighter :=
  if c.onGround && decide (rand < 1 / 100) then { c with vy := -250 } else c

/-- `Game.update(dt)`: a no-op unless the state is `'fight'`; otherwise the
player input, jump and physics steps run, then the CPU decision, random
jump trial and physics steps, in source order.  The fighters exist in every
reachable `'fight'` state; the fallthrough case is unreachable. -/
def Game.update (g : Game) (dt rand : ℚ) : Game :=
  if g.state = Phase.fight then
    match g.player, g.cpu with
    | some player0, some cpu0 =>
      let player := playerJump g.keys (playerInputVx g.keys player0)
      let player := player.update dt
      let cpu := cpuAI player.x cpu0
      let cpu := cpuRandomJump rand cpu
      let cpu := cpu.update dt
      { g with player := some player, cpu := some cpu }
    | _, _ => g
  else g

/-- The external stimuli that drive the game: key events, the completion of
the asynchronous asset load, and an animation frame (carrying its `dt` and
the `Math.random()` sample of that frame). -/
inductive Event where
  | keydown (c : KeyCode)
  | keyup (c : KeyCode)
  | assetsLoaded (bg fimg : Image)
  | frame (dt rand : ℚ)

/-- Dispatch one stimulus.  A load completion only fires while the single
`loadAssets` call is still outstanding.  A frame runs `update` (the `draw`
half touches no game state). -/
def Game.step (g : Game) (e : Event) : Game :=
  match e with
  | Event.keydown c => g.keydown c
  | Event.keyup c => g.keyup c
  | Event.assetsLoaded bg fimg =>
      if g.loadPending then { g.loadAssets bg fimg with loadPending := false } else g
  | Event.frame dt rand => g.update dt rand

/-- The game state after a sequence of stimuli from startup. -/
def Game.run (es : List Event) : Game :=
  es.foldl Game.step Game.init

/-- Concrete 8×8 sprite used by the evaluation witnesses. -/
def img8 : Image := { width := 8, height := 8 }

/-- Concrete airborne fighter used by the evaluation witnesses. -/
def fighter0 : Fighter := Fighter.create img8 60 50

/-- Key map with both movement keys held. -/
def keysBoth : Keys := { keyA := true, keyD := true, keyW := false, space := false }

/-- Concrete cpu fighter as created by `loadAssets`. -/
def cStart : Fighter := { Fighter.create img8 220 50 with facing := -1 }

/-- Concrete active-phase game with both movement keys held. -/
def gBoth : Game :=
  { keys := keysBoth, state := Phase.fight, bg := some img8, fighterImg := some img8,
    player := some fighter0, cpu := some cStart, loadPending := false }

/-- Key map with only the jump key held. -/
def keysW : Keys := { keyA := false, keyD := false, keyW := true, space := false }

/-- Concrete grounded fighter used by the jump-gating witness. -/
def pGround : Fighter := { Fighter.create img8 60 134 with onGround := true }

/-- States in which the outstanding-load bookkeeping is consistent: a load
can only still be in flight while the phase is `loading`.  Every state
reachable from startup satisfies this. -/
def LoadInv (g : Game) : Prop := g.loadPending = true → g.state = Phase.loading

/-! ### Helper lemmas about `Fighter.update` and the per-frame steps -/

lemma Fighter.update_vx (f : Fighter) (dt : ℚ) : (f.update dt).vx = f.vx := by
  simp only [Fighter.update]
  split <;> rfl

lemma Fighter.update_facing (f : Fighter) (dt : ℚ) : (f.update dt).facing = f.facing := by
  simp only [Fighter.update]
  split <;> rfl

lemma Fighter.update_img (f : Fighter) (dt : ℚ) : (f.update dt).img = f.img := by
  simp only [Fighter.update]
  split <;> rfl

lemma Fighter.update_x (f : Fighter) (dt : ℚ) : (f.update dt).x = f.x + f.vx * dt := by
  simp only [Fighter.update]
  split <;> rfl

lemma playerInputVx_vy (keys : Keys) (p : Fighter) : (playerInputVx keys p).vy = p.vy := by
  simp only [playerInputVx]
  split <;> [rfl; split <;> rfl]

lemma playerInputVx_onGround (keys : Keys) (p : Fighter) :
    (playerInputVx keys p).onGround = p.onGround := by
  simp only [playerInputVx]
  split <;> [rfl; split <;> rfl]

lemma playerJump_vx (keys : Keys) (p : Fighter) : (playerJump keys p).vx = p.vx := by
  simp only [playerJump]
  split <;> rfl

lemma playerJump_facing (keys : Keys) (p : Fighter) :
    (playerJump keys p).facing = p.facing := by
  simp only [playerJump]
  split <;> rfl

lemma cpuRandomJump_vx (rand : ℚ) (c : Fighter) : (cpuRandomJump rand c).vx = c.vx := by
  simp only [cpuRandomJump]
  split <;> rfl

lemma cpuRandomJump_facing (rand : ℚ) (c : Fighter) :
    (cpuRandomJump rand c).facing = c.facing := by
  simp only [cpuRandomJump]
  split <;> rfl

/-! ### C2, C3, C10 -/

/-- C2: after any `Fighter.update(dt)`, the fighter's bottom edge
`y + img.height * 2` is at or above the ground line 150 (i.e. the value is
≤ 150), and it sits exactly on the ground line iff `onGround` is true. -/
theorem ground_clamp_invariant (f : Fighter) (dt : ℚ) :
    (f.update dt).y + (f.update dt).img.height * 2 ≤ 150
    ∧ ((f.update dt).y + (f.update dt).img.height * 2 = 150 ↔ (f.update dt).onGround = true) := by
  simp only [Fighter.update]
  split
  · rename_i h
    dsimp only
    constructor
    · linarith
    · constructor
      · intro _
        rfl
      · intro _
        ring
  · rename_i h
    push_neg at h
    dsimp only
    constructor
    · linarith
    · constructor
      · intro hy
        exfalso
        linarith
      · intro hfalse
        exact absurd hfalse (by simp)

/-- C3: for dt ≥ 0, `Fighter.update(dt)` applies gravity to the velocity
first and integrates position from the updated velocity: the new x is
`x + vx * dt`; when the pre-clamp bottom edge reaches the ground line the
vertical velocity is clamped to 0, otherwise it is exactly
`vy + 600 * dt` and the new y is the pre-clamp `y + (vy + 600 * dt) * dt`. -/
theorem update_semi_implicit_euler (f : Fighter) (dt : ℚ) (hdt : 0 ≤ dt) :
    (f.update dt).x = f.x + f.vx * dt
    ∧ (f.y + (f.vy + 600 * dt) * dt + f.img.height * 2 ≥ 150 →
        (f.update dt).vy = 0 ∧ (f.update dt).onGround = true)
    ∧ (f.y + (f.vy + 600 * dt) * dt + f.img.height * 2 < 150 →
        (f.update dt).vy = f.vy + 600 * dt
        ∧ (f.update dt).y = f.y + (f.vy + 600 * dt) * dt) := by
  simp only [Fighter.update]
  split
  · rename_i h
    exact ⟨rfl, fun _ => ⟨rfl, rfl⟩, fun hlt => absurd h (by linarith)⟩
  · rename_i h
    push_neg at h
    exact ⟨rfl, fun hge => absurd hge (by linarith), fun _ => ⟨rfl, rfl⟩⟩

/-- C10: `Fighter.update(dt)` never changes the horizontal velocity, the
facing or the sprite reference. -/
theorem update_touches_only_kinematics (f : Fighter) (dt : ℚ) :
    (f.update dt).vx = f.vx ∧ (f.update dt).facing = f.facing
    ∧ (f.update dt).img = f.img :=
  ⟨Fighter.update_vx f dt, Fighter.update_facing f dt, Fighter.update_img f dt⟩

/-- Witness for C3 at the concrete fighter `fighter0` with dt = 1. -/
theorem update_semi_implicit_euler_witness :
    (0:ℚ) ≤ 1 ∧ (fighter0.update 1).x = fighter0.x + fighter0.vx * 1 :=
  ⟨by norm_num, (update_semi_implicit_euler fighter0 1 (by norm_num)).1⟩

/-! ### C1, C6, C8 -/

/-- C1 counterexample: in an active-phase update with both `KeyA` and
`KeyD` held, the player's horizontal velocity comes out as −120 with facing
left (the `KeyA` branch runs and the `else if` on `KeyD` is skipped), not
+120 facing right as claimed. -/
theorem both_keys_counterexample :
    (Game.update gBoth 0 1).player.map Fighter.vx = some (-120)
    ∧ (Game.update gBoth 0 1).player.map Fighter.facing = some (-1)
    ∧ ¬((Game.update gBoth 0 1).player.map Fighter.vx = some 120) := by
  have hup : (Game.update gBoth 0 1).player
      = some ((playerJump keysBoth (playerInputVx keysBoth fighter0)).update 0) := by
    simp [Game.update, gBoth]
  have hvx : ((playerJump keysBoth (playerInputVx keysBoth fighter0)).update 0).vx = -120 := by
    rw [Fighter.update_vx, playerJump_vx]
    simp [playerInputVx, keysBoth]
  have hfc : ((playerJump keysBoth (playerInputVx keysBoth fighter0)).update 0).facing = -1 := by
    rw [Fighter.update_facing, playerJump_facing]
    simp [playerInputVx, keysBoth]
  refine ⟨?_, ?_, ?_⟩
  · rw [hup]
    simp [hvx]
  · rw [hup]
    simp [hfc]
  · rw [hup]
    simp [hvx]
    norm_num

/-- C1 amended: in every active-phase driver update in which both the left
key and the right key are held, the player's horizontal velocity after the
input-mapping step is −120 and the facing is left — the `left` branch is
checked first and its `else if` skips the `right` branch. -/
theorem both_keys_left_wins (g : Game) (p c : Fighter) (dt rand : ℚ)
    (hs : g.state = Phase.fight) (hp : g.player = some p) (hc : g.cpu = some c)
    (hA : g.keys.keyA = true) (hD : g.keys.keyD = true) :
    ∃ q, (g.update dt rand).player = some q ∧ q.vx = -120 ∧ q.facing = -1 := by
  refine ⟨(playerJump g.keys (playerInputVx g.keys p)).update dt, ?_, ?_, ?_⟩
  · simp [Game.update, hs, hp, hc]
  · rw [Fighter.update_vx, playerJump_vx]
    simp [playerInputVx, hA]
  · rw [Fighter.update_facing, playerJump_facing]
    simp [playerInputVx, hA]

/-- Witness for the amended C1 at the concrete game `gBoth`. -/
theorem both_keys_left_wins_witness :
    ∃ q, (Game.update gBoth 0 1).player = some q ∧ q.vx = -120 ∧ q.facing = -1 :=
  both_keys_left_wins gBoth fighter0 cStart 0 1 rfl rfl rfl rfl rfl

/-- C6: within an active-phase update, the jump rule fires — setting the
player's vertical velocity to −250 — exactly when `KeyW` is held and the
grounded flag left by the previous frame is true; otherwise it leaves the
vertical velocity untouched (the input-mapping step never writes `vy`). -/
theorem jump_gating (keys : Keys) (p : Fighter) :
    ((keys.keyW && p.onGround) = true →
      (playerJump keys (playerInputVx keys p)).vy = -250)
    ∧ ((keys.keyW && p.onGround) = false →
      (playerJump keys (playerInputVx keys p)).vy = p.vy) := by
  have hg : (playerInputVx keys p).onGround = p.onGround := playerInputVx_onGround keys p
  constructor
  · intro h
    simp [playerJump, hg, h]
  · intro h
    simp [playerJump, hg, h, playerInputVx_vy]

/-- Witness for C6: with `KeyW` held and the fighter grounded the jump rule
fires. -/
theorem jump_gating_witness :
    (keysW.keyW && pGround.onGround) = true
    ∧ (playerJump keysW (playerInputVx keysW pGround)).vy = -250 :=
  ⟨rfl, (jump_gating keysW pGround).1 rfl⟩

/-- C8: in the `loading` and `vs` phases, `Game.update` changes nothing:
the whole simulation body is guarded by `state === 'fight'`. -/
theorem update_noop_outside_fight (g : Game) (dt rand : ℚ)
    (h : g.state = Phase.loading ∨ g.state = Phase.vs) :
    Game.update g dt rand = g := by
  have hne : ¬(g.state = Phase.fight) := by
    rcases h with h | h <;> simp [h]
  simp [Game.update, hne]

/-- Witness for C8 at the freshly constructed game (phase `loading`). -/
theorem update_noop_outside_fight_witness :
    (Game.init.state = Phase.loading ∨ Game.init.state = Phase.vs)
    ∧ Game.update Game.init 1 1 = Game.init :=
  ⟨Or.inl rfl, update_noop_outside_fight Game.init 1 1 (Or.inl rfl)⟩

/-! ### C5: the CPU decision rule -/

lemma cpuAI_vx (px : ℚ) (c : Fighter) :
    (cpuAI px c).vx = if 40 < |px - c.x| then (if 0 < px - c.x then 80 else -80) else 0 := rfl

lemma cpuAI_facing (px : ℚ) (c : Fighter) :
    (cpuAI px c).facing = if 0 ≤ (cpuAI px c).vx then 1 else -1 := rfl

/-- C5: in every active-phase update, with `dx` measured from the player's
just-updated x to the cpu's pre-update x, the cpu's velocity after the
update is 80 with the sign of `dx` when `|dx| > 40` and 0 otherwise, and
the cpu faces right exactly when that velocity is ≥ 0 (so an idle cpu
faces right). -/
theorem cpu_ai_after_update (g : Game) (p c : Fighter) (dt rand : ℚ)
    (hs : g.state = Phase.fight) (hp : g.player = some p) (hc : g.cpu = some c) :
    ∃ q d, (g.update dt rand).player = some q ∧ (g.update dt rand).cpu = some d
      ∧ (40 < |q.x - c.x| → d.vx = if 0 < q.x - c.x then 80 else -80)
      ∧ (|q.x - c.x| ≤ 40 → d.vx = 0)
      ∧ (d.facing = 1 ↔ 0 ≤ d.vx)
      ∧ (d.facing = -1 ↔ d.vx < 0) := by
  have hP : (g.update dt rand).player
      = some ((playerJump g.keys (playerInputVx g.keys p)).update dt) := by
    simp [Game.update, hs, hp, hc]
  have hD : (g.update dt rand).cpu
      = some ((cpuRandomJump rand
          (cpuAI ((playerJump g.keys (playerInputVx g.keys p)).update dt).x c)).update dt) := by
    simp [Game.update, hs, hp, hc]
  set P := (playerJump g.keys (playerInputVx g.keys p)).update dt with hPdef
  set D := (cpuRandomJump rand (cpuAI P.x c)).update dt with hDdef
  have hdvx : D.vx = (cpuAI P.x c).vx := by
    rw [hDdef, Fighter.update_vx, cpuRandomJump_vx]
  have hdfc : D.facing = (cpuAI P.x c).facing := by
    rw [hDdef, Fighter.update_facing, cpuRandomJump_facing]
  refine ⟨P, D, hP, hD, ?_, ?_, ?_, ?_⟩
  · intro h
    rw [hdvx, cpuAI_vx, if_pos h]
  · intro h
    rw [hdvx, cpuAI_vx, if_neg (not_lt.mpr h)]
  · rw [hdfc, hdvx, cpuAI_facing]
    split_ifs with h0
    · simp [h0]
    · constructor
      · intro h1
        norm_num at h1
      · intro h1
        exact absurd h1 h0
  · rw [hdfc, hdvx, cpuAI_facing]
    split_ifs with h0
    · constructor
      · intro h1
        norm_num at h1
      · intro h1
        exact absurd h1 (not_lt.mpr h0)
    · constructor
      · intro _
        exact not_le.mp h0
      · intro _
        rfl

/-- Witness for C5 at the concrete game `gBoth`. -/
theorem cpu_ai_after_update_witness :
    ∃ q d, (Game.update gBoth 0 1).player = some q ∧ (Game.update gBoth 0 1).cpu = some d
      ∧ (40 < |q.x - cStart.x| → d.vx = if 0 < q.x - cStart.x then 80 else -80)
      ∧ (|q.x - cStart.x| ≤ 40 → d.vx = 0)
      ∧ (d.facing = 1 ↔ 0 ≤ d.vx)
      ∧ (d.facing = -1 ↔ d.vx < 0) :=
  cpu_ai_after_update gBoth fighter0 cStart 0 1 rfl rfl rfl

/-! ### C9: the loading → vs transition -/

/-- C9: while the single asset load is outstanding, its completion puts the
game in phase `vs` with the player created at (60, 50), the cpu created at
(220, 50) facing left, both holding the same sprite image; the load is then
spent, so any further load-completion stimulus is a no-op (the transition
happens exactly once). -/
theorem load_transition (g : Game) (bg fimg : Image) (h : g.loadPending = true) :
    (g.step (Event.assetsLoaded bg fimg)).state = Phase.vs
    ∧ (g.step (Event.assetsLoaded bg fimg)).player = some (Fighter.create fimg 60 50)
    ∧ (g.step (Event.assetsLoaded bg fimg)).cpu
        = some { Fighter.create fimg 220 50 with facing := -1 }
    ∧ (g.step (Event.assetsLoaded bg fimg)).fighterImg = some fimg
    ∧ (g.step (Event.assetsLoaded bg fimg)).player.map Fighter.img
        = (g.step (Event.assetsLoaded bg fimg)).cpu.map Fighter.img
    ∧ (g.step (Event.assetsLoaded bg fimg)).loadPending = false
    ∧ (∀ bg2 fimg2, (g.step (Event.assetsLoaded bg fimg)).step (Event.assetsLoaded bg2 fimg2)
        = g.step (Event.assetsLoaded bg fimg)) := by
  have hfire : g.step (Event.assetsLoaded bg fimg)
      = { g.loadAssets bg fimg with loadPending := false } := by
    simp [Game.step, h]
  rw [hfire]
  refine ⟨rfl, rfl, rfl, rfl, rfl, rfl, ?_⟩
  intro bg2 fimg2
  simp [Game.step, Game.loadAssets]

/-- Witness for C9 at the freshly constructed game. -/
theorem load_transition_witness :
    Game.init.loadPending = true
    ∧ (Game.init.step (Event.assetsLoaded img8 img8)).state = Phase.vs :=
  ⟨rfl, (load_transition Game.init img8 img8 rfl).1⟩

/-! ### C4: phase monotonicity -/

lemma loadInv_init : LoadInv Game.init := fun _ => rfl

lemma update_state_eq (g : Game) (dt rand : ℚ) : (g.update dt rand).state = g.state := by
  simp only [Game.update]
  split
  · split <;> rfl
  · rfl

lemma update_loadPending_eq (g : Game) (dt rand : ℚ) :
    (g.update dt rand).loadPending = g.loadPending := by
  simp only [Game.update]
  split
  · split <;> rfl
  · rfl

lemma loadInv_step (g : Game) (e : Event) (hInv : LoadInv g) : LoadInv (g.step e) := by
  cases e with
  | keydown c =>
    simp only [Game.step, Game.keydown]
    split
    · rename_i hcond
      intro hpend
      exact absurd (hInv hpend) (by rw [hcond.1]; intro h; exact Phase.noConfusion h)
    · exact hInv
  | keyup c => exact hInv
  | assetsLoaded bg fimg =>
    simp only [Game.step]
    split
    · intro hpend
      exact absurd hpend (by simp)
    · exact hInv
  | frame dt rand =>
    intro hpend
    simp only [Game.step] at hpend ⊢
    rw [update_loadPending_eq] at hpend
    rw [update_state_eq]
    exact hInv hpend

lemma step_phase_bound (g : Game) (e : Event) (hInv : LoadInv g) :
    phaseIdx g.state ≤ phaseIdx (g.step e).state
    ∧ phaseIdx (g.step e).state ≤ phaseIdx g.state + 1 := by
  cases e with
  | keydown c =>
    simp only [Game.step, Game.keydown]
    split
    · rename_i hcond
      have hvs : g.state = Phase.vs := hcond.1
      rw [hvs]
      exact ⟨by simp [phaseIdx], by simp [phaseIdx]⟩
    · exact ⟨le_refl _, Nat.le_succ _⟩
  | keyup c => exact ⟨le_refl _, Nat.le_succ _⟩
  | assetsLoaded bg fimg =>
    simp only [Game.step]
    split
    · rename_i hpend
      rw [hInv hpend]
      exact ⟨by simp [phaseIdx, Game.loadAssets], by simp [phaseIdx, Game.loadAssets]⟩
    · exact ⟨le_refl _, Nat.le_succ _⟩
  | frame dt rand =>
    have h : (g.step (Event.frame dt rand)).state = g.state := update_state_eq g dt rand
    rw [h]
    exact ⟨le_refl _, Nat.le_succ _⟩

lemma loadInv_foldl : ∀ (es : List Event) (g : Game), LoadInv g →
    LoadInv (es.foldl Game.step g)
  | [], _, h => h
  | e :: es, g, h => loadInv_foldl es (g.step e) (loadInv_step g e h)

lemma phase_mono_foldl : ∀ (es : List Event) (g : Game), LoadInv g →
    phaseIdx g.state ≤ phaseIdx (es.foldl Game.step g).state
  | [], _, _ => le_refl _
  | e :: es, g, h =>
      le_trans (step_phase_bound g e h).1
        (phase_mono_foldl es (g.step e) (loadInv_step g e h))

/-- C4: along every sequence of stimuli from startup, the phase only ever
moves forward along loading → vs → fight, and any single stimulus advances
it by at most one stage — so the phase never moves backward and never skips
`vs` on the way from `loading` to `fight` (the confirm key only takes
effect in `vs`). -/
theorem phase_monotone (es tail : List Event) (e : Event) :
    phaseIdx (Game.run es).state ≤ phaseIdx (Game.run (es ++ tail)).state
    ∧ phaseIdx (Game.run (es ++ [e])).state ≤ phaseIdx (Game.run es).state + 1 := by
  have hInv : LoadInv (Game.run es) := loadInv_foldl es Game.init loadInv_init
  constructor
  · rw [Game.run, Game.run, List.foldl_append]
    exact phase_mono_foldl tail _ hInv
  · rw [Game.run, Game.run, List.foldl_append]
    simp only [List.foldl_cons, List.foldl_nil]
    exact (step_phase_bound _ e hInv).2

/-! ### C7: the facing/draw mirror property -/

lemma affine_image_Icc (a c : ℚ) (hc : 0 ≤ c) :
    Set.image (fun t => a + t * c) (Set.Icc (0:ℚ) 1) = Set.Icc a (a + c) := by
  apply Set.ext
  intro z
  constructor
  · rintro ⟨t, ⟨ht0, ht1⟩, rfl⟩
    constructor
    · show a ≤ a + t * c
      nlinarith
    · show a + t * c ≤ a + c
      nlinarith
  · rintro ⟨hz0, hz1⟩
    rcases eq_or_lt_of_le hc with hc0 | hc0
    · refine ⟨0, ⟨le_refl 0, by norm_num⟩, ?_⟩
      have hza : z = a := le_antisymm (by linarith) hz0
      show a + 0 * c = z
      rw [hza]
      ring
    · refine ⟨(z - a) / c, ⟨div_nonneg (by linarith) (le_of_lt hc0), ?_⟩, ?_⟩
      · rw [div_le_one hc0]
        linarith
      · show a + (z - a) / c * c = z
        field_simp

/-- C7: the left-facing draw covers the same world interval
`[x, x + width * 2]` as the right-facing draw at the same position, with
the sprite horizontally flipped within it: the point of the sprite at
horizontal fraction `t` lands, when facing left, exactly where the point
at fraction `1 − t` lands when facing right. -/
theorem draw_mirror (f : Fighter) (hw : 0 ≤ f.img.width) :
    (∀ t : ℚ, ({ f with facing := -1 } : Fighter).draw.worldX t
        = ({ f with facing := 1 } : Fighter).draw.worldX (1 - t))
    ∧ Set.image ({ f with facing := -1 } : Fighter).draw.worldX (Set.Icc (0:ℚ) 1)
        = Set.Icc f.x (f.x + f.img.width * 2)
    ∧ Set.image ({ f with facing := 1 } : Fighter).draw.worldX (Set.Icc (0:ℚ) 1)
        = Set.Icc f.x (f.x + f.img.width * 2) := by
  have hL : ({ f with facing := -1 } : Fighter).draw
      = { scaleX := -1, dx := -f.x - f.img.width * 2, dy := f.y,
          dw := f.img.width * 2, dh := f.img.height * 2 } := by
    simp [Fighter.draw]
  have hR : ({ f with facing := 1 } : Fighter).draw
      = { scaleX := 1, dx := f.x, dy := f.y,
          dw := f.img.width * 2, dh := f.img.height * 2 } := by
    simp [Fighter.draw]
  have hLw : ∀ t : ℚ, ({ f with facing := -1 } : Fighter).draw.worldX t
      = f.x + f.img.width * 2 - t * (f.img.width * 2) := by
    intro t
    rw [hL]
    simp only [DrawImageCall.worldX]
    ring
  have hRw : ∀ t : ℚ, ({ f with facing := 1 } : Fighter).draw.worldX t
      = f.x + t * (f.img.width * 2) := by
    intro t
    rw [hR]
    simp only [DrawImageCall.worldX]
    ring
  have hRfun : ({ f with facing := 1 } : Fighter).draw.worldX
      = fun t => f.x + t * (f.img.width * 2) := funext fun t => hRw t
  have hImgR : Set.image ({ f with facing := 1 } : Fighter).draw.worldX (Set.Icc (0:ℚ) 1)
      = Set.Icc f.x (f.x + f.img.width * 2) := by
    rw [hRfun]
    exact affine_image_Icc f.x (f.img.width * 2) (by linarith)
  have hLfun : ({ f with facing := -1 } : Fighter).draw.worldX
      = (({ f with facing := 1 } : Fighter).draw.worldX ∘ fun t => 1 - t) := by
    funext t
    simp only [Function.comp]
    rw [hLw t, hRw (1 - t)]
    ring
  have hsigma : Set.image (fun t : ℚ => 1 - t) (Set.Icc (0:ℚ) 1) = Set.Icc (0:ℚ) 1 := by
    rw [Set.image_const_sub_Icc]
    norm_num
  have hImgL : Set.image ({ f with facing := -1 } : Fighter).draw.worldX (Set.Icc (0:ℚ) 1)
      = Set.Icc f.x (f.x + f.img.width * 2) := by
    rw [hLfun, Set.image_comp, hsigma, hImgR]
  refine ⟨?_, hImgL, hImgR⟩
  intro t
  rw [hLw t, hRw (1 - t)]
  ring

/-- Witness for C7 at the concrete fighter `fighter0` (8×8 sprite). -/
theorem draw_mirror_witness :
    (0:ℚ) ≤ fighter0.img.width
    ∧ ((∀ t : ℚ, ({ fighter0 with facing := -1 } : Fighter).draw.worldX t
        = ({ fighter0 with facing := 1 } : Fighter).draw.worldX (1 - t))
      ∧ Set.image ({ fighter0 with facing := -1 } : Fighter).draw.worldX (Set.Icc (0:ℚ) 1)
          = Set.Icc fighter0.x (fighter0.x + fighter0.img.width * 2)
      ∧ Set.image ({ fighter0 with facing := 1 } : Fighter).draw.worldX (Set.Icc (0:ℚ) 1)
          = Set.Icc fighter0.x (fighter0.x + fighter0.img.width * 2)) :=
  ⟨by norm_num [fighter0, img8, Fighter.create],
    draw_mirror fighter0 (by norm_num [fighter0, img8, Fighter.create])⟩
